import Mathlib

/-!
Shallow embedding of the differential-testing result-capture and comparison
core of this repository (header `test/utils/test_results_set.h`).

The header file is the only source available for this component: the bodies of
`test_equal`, `TestResultsSet::push`, `TestResultsSet::num_results`,
`TestResultsSet::size_for_type`, `TestResultsSet::precision_for_result` and the
`TestResultsSet` constructor live in a translation unit that is not part of the
sources.  Definitions for those are modelled from the specification (each such
definition carries a doc comment starting with `Modelled from the spec:`).
Everything written inline in the header (the `Result` constructor,
`Result::set`, the policy setters, `reset_seq`, `sync_archs`, `get_results`,
`SeqTestSuite`) is embedded directly from that code.

Byte buffers are `List Nat` (each entry one byte), machine integers are `Nat`,
and IEEE-754 values appear only through their bit patterns.
-/

namespace Simdpp

/-- Embeds `enum VectorType` from the header: the scalar element kind of a
vector value. -/
inductive VectorType : Type where
  | TYPE_INT8
  | TYPE_UINT8
  | TYPE_INT16
  | TYPE_UINT16
  | TYPE_UINT32
  | TYPE_INT32
  | TYPE_UINT64
  | TYPE_INT64
  | TYPE_FLOAT32
  | TYPE_FLOAT64
deriving DecidableEq

/-- Embeds `TestResultsSet::Result`: one captured result vector together with
its comparison policy and provenance. -/
structure Result where
  type : VectorType
  line : Nat
  seq : Nat
  prec_ulp : Nat
  fp_zero_eq : Bool
  file : String
  length : Nat
  el_size : Nat
  data : List Nat
deriving DecidableEq

/-- Embeds the `Result` constructor (inline in the header): it stores all
fields and performs `data.resize(el_size*length)`; resizing a freshly
constructed `std::vector<uint8_t>` value-initializes, i.e. zero-fills, so the
buffer is `el_size * length` zero bytes. -/
def Result.make (atype : VectorType) (alength ael_size : Nat) (afile : String)
    (aline aseq aprec_ulp : Nat) (afp_zero_eq : Bool) : Result :=
  { type := atype
    line := aline
    seq := aseq
    prec_ulp := aprec_ulp
    fp_zero_eq := afp_zero_eq
    file := afile
    length := alength
    el_size := ael_size
    data := List.replicate (ael_size * alength) 0 }

/-- A bounded `memcpy` into a byte list: byte `j` of the result is taken from
`src` when `j` lies in `[off, off + src.length)` and from `dst` otherwise.
Writes that fall beyond the destination are dropped by the model (in the C++
source they are out-of-bounds writes). The destination length is preserved. -/
def listMemcpy (dst : List Nat) (off : Nat) (src : List Nat) : List Nat :=
  (List.range dst.length).map fun j =>
    if off ≤ j ∧ j < off + src.length then src.getD (j - off) 0 else dst.getD j 0

/-- Embeds `Result::set` (inline in the header):
`std::memcpy(data.data() + id*el_size, adata, el_size)` — copies exactly
`el_size` bytes of `adata` to offset `id * el_size`, with no bounds check of
any kind. -/
def Result.set (r : Result) (id : Nat) (adata : List Nat) : Result :=
  { r with data := listMemcpy r.data (id * r.el_size) (adata.take r.el_size) }

/-- Defined from the spec's words, for refinement comparison with the code's
`Result.set`: the spec requires `index < length` and calls a violation a fatal
contract error, so this checked variant signals `none` on an out-of-range
index instead of writing. -/
def Result.set_spec (r : Result) (id : Nat) (adata : List Nat) : Option Result :=
  if id < r.length then some (r.set id adata) else none

/-- Modelled from the spec: `TestResultsSet::size_for_type` is only declared in
the header; the spec gives each element-type tag a fixed byte size — 8/16/32/64
bit integers and IEEE-754 single/double floats. -/
def size_for_type : VectorType → Nat
  | .TYPE_INT8 => 1
  | .TYPE_UINT8 => 1
  | .TYPE_INT16 => 2
  | .TYPE_UINT16 => 2
  | .TYPE_UINT32 => 4
  | .TYPE_INT32 => 4
  | .TYPE_UINT64 => 8
  | .TYPE_INT64 => 8
  | .TYPE_FLOAT32 => 4
  | .TYPE_FLOAT64 => 8

/-- Modelled from the spec: `TestResultsSet::precision_for_result` is only
declared in the header; per the spec each record carries its own declared ULP
tolerance, which this accessor reports. -/
def precision_for_result (res : Result) : Nat :=
  res.prec_ulp

/-- Embeds the state of `TestResultsSet`: the cursor fields and the sectioned
list of result records. -/
structure TestResultsSet where
  name : String
  seq_ : Nat
  curr_precision_ulp_ : Nat
  curr_fp_zero_equal_ : Bool
  curr_results_section_ : Nat
  results_ : List (List Result)
deriving DecidableEq

/-- Modelled from the spec: the `TestResultsSet` constructor body is not in the
sources. Per the spec the sequence cursor starts at 1, precision starts exact
(0), zero-equality starts off, and the run starts in the initial section
(index 0); sections are materialized in `results_` by `push`, while
`curr_results_section_` tracks the index of the section the run is in. -/
def TestResultsSet.make (name : String) : TestResultsSet :=
  { name := name
    seq_ := 1
    curr_precision_ulp_ := 0
    curr_fp_zero_equal_ := false
    curr_results_section_ := 0
    results_ := [] }

/-- Embeds `set_precision` (inline in the header). -/
def TestResultsSet.set_precision (s : TestResultsSet) (num_ulp : Nat) : TestResultsSet :=
  { s with curr_precision_ulp_ := num_ulp }

/-- Embeds `unset_precision` (inline in the header). -/
def TestResultsSet.unset_precision (s : TestResultsSet) : TestResultsSet :=
  { s with curr_precision_ulp_ := 0 }

/-- Embeds `set_fp_zero_equal` (inline in the header). -/
def TestResultsSet.set_fp_zero_equal (s : TestResultsSet) : TestResultsSet :=
  { s with curr_fp_zero_equal_ := true }

/-- Embeds `unset_fp_zero_equal` (inline in the header). -/
def TestResultsSet.unset_fp_zero_equal (s : TestResultsSet) : TestResultsSet :=
  { s with curr_fp_zero_equal_ := false }

/-- Embeds `reset_seq` (inline in the header): sets the sequence cursor to 1. -/
def TestResultsSet.reset_seq (s : TestResultsSet) : TestResultsSet :=
  { s with seq_ := 1 }

/-- Embeds `sync_archs` (inline in the header):
`curr_results_section_++; reset_seq();`. -/
def TestResultsSet.sync_archs (s : TestResultsSet) : TestResultsSet :=
  TestResultsSet.reset_seq { s with curr_results_section_ := s.curr_results_section_ + 1 }

/-- Embeds `get_results` (inline in the header). -/
def TestResultsSet.get_results (s : TestResultsSet) : List (List Result) :=
  s.results_

/-- Pads a list of sections with empty sections up to length `n`. -/
def padTo (ls : List (List Result)) (n : Nat) : List (List Result) :=
  ls ++ List.replicate (n - ls.length) []

/-- Modelled from the spec: `TestResultsSet::push` is only declared in the
header. Per the spec it appends a new record — built with the current policy
snapshot and the next sequence number — to the current section, and increments
the sequence counter. The current section is the one at index
`curr_results_section_`; sections up to that index are materialized on demand
so that the record lands in the section the run is currently in. -/
def TestResultsSet.push (s : TestResultsSet) (type : VectorType) (length : Nat)
    (file : String) (line : Nat) : TestResultsSet :=
  let rs := padTo s.results_ (s.curr_results_section_ + 1)
  let sec := rs.getD s.curr_results_section_ []
  let r := Result.make type length (size_for_type type) file line s.seq_
    s.curr_precision_ulp_ s.curr_fp_zero_equal_
  { s with
    results_ := rs.set s.curr_results_section_ (sec ++ [r])
    seq_ := s.seq_ + 1 }

/-- Modelled from the spec: `TestResultsSet::num_results` is only declared in
the header; per the spec it is the total record count across all sections. -/
def TestResultsSet.num_results (s : TestResultsSet) : Nat :=
  (s.results_.map List.length).sum

/-- The number of sections the run has begun: the initial section plus one per
`sync_archs` marker; the state tracks the current section by its index
`curr_results_section_`, so this is that index plus one. -/
def sectionCount (s : TestResultsSet) : Nat :=
  s.curr_results_section_ + 1

/-- The last record of a section, if any. -/
def lastOfSection : List Result → Option Result
  | [] => none
  | [r] => some r
  | _ :: r :: rs => lastOfSection (r :: rs)

/-- The most recently appended record of the current section — the record the
reference returned by the C++ `push` points at. -/
def lastPushed (s : TestResultsSet) : Option Result :=
  lastOfSection (s.results_.getD s.curr_results_section_ [])

/-- A well-formed placeholder record (used as a lookup default). -/
def emptyResult : Result :=
  Result.make .TYPE_INT8 0 1 "" 0 0 0 false

/-- Filling element `id` of the record at section `sect`, position `pos`: the
C++ caller holds the reference returned by `push` and calls `Result::set` on
it; in the state-passing model the record is addressed by its position.
Out-of-range section or position leaves the state unchanged
(`List.set` past the end is the identity). -/
def TestResultsSet.set_result (s : TestResultsSet) (sect pos id : Nat)
    (bytes : List Nat) : TestResultsSet :=
  let sec := s.results_.getD sect []
  { s with results_ := s.results_.set sect (sec.set pos ((sec.getD pos emptyResult).set id bytes)) }

/-- One harness action on a results set, for reasoning about all reachable
states. -/
inductive Op : Type where
  | push (t : VectorType) (len : Nat) (file : String) (line : Nat)
  | set_result (sect pos id : Nat) (bytes : List Nat)
  | set_precision (n : Nat)
  | unset_precision
  | set_fp_zero_equal
  | unset_fp_zero_equal
  | sync_archs
  | reset_seq
deriving DecidableEq

/-- Interprets one harness action. -/
def applyOp (s : TestResultsSet) : Op → TestResultsSet
  | .push t len file line => s.push t len file line
  | .set_result sect pos id bytes => s.set_result sect pos id bytes
  | .set_precision n => s.set_precision n
  | .unset_precision => s.unset_precision
  | .set_fp_zero_equal => s.set_fp_zero_equal
  | .unset_fp_zero_equal => s.unset_fp_zero_equal
  | .sync_archs => s.sync_archs
  | .reset_seq => s.reset_seq

/-- The state reached by a fresh results set after a sequence of harness
actions. -/
def run (name : String) (ops : List Op) : TestResultsSet :=
  ops.foldl applyOp (TestResultsSet.make name)

/-- Little-endian decoding of a byte list into the element's bit pattern. -/
def decodeLE : List Nat → Nat
  | [] => 0
  | b :: bs => b % 256 + 256 * decodeLE bs

/-- The bit pattern of element `i` of a record: the `el_size` bytes starting
at offset `i * el_size` of its buffer, decoded little-endian. -/
def elemBits (r : Result) (i : Nat) : Nat :=
  decodeLE ((r.data.drop (i * r.el_size)).take r.el_size)

/-- Whether an IEEE-754 bit pattern with `mant` mantissa bits and `exp`
exponent bits is a NaN: exponent field all ones and mantissa nonzero. -/
def f_isNan (mant exp : Nat) (b : Nat) : Bool :=
  decide ((b / 2 ^ mant) % 2 ^ exp = 2 ^ exp - 1) && decide (b % 2 ^ mant ≠ 0)

/-- The order-preserving integer image of an IEEE-754 bit pattern whose sign
bit is bit `signBit`: non-negative patterns map to themselves and negative
patterns to `-(magnitude) - 1`, so consecutive integers are exactly the
representable values in order and adjacent values differ by one unit in the
last place (in particular +0.0 maps to 0 and -0.0 to -1). -/
def f_ord (signBit : Nat) (b : Nat) : Int :=
  if b < 2 ^ signBit then (b : Int) else -(((b - 2 ^ signBit : Nat) : Int)) - 1

/-- The distance of two IEEE-754 bit patterns in units in the last place,
realized as the absolute difference of their order-preserving images. -/
def fUlpDist (signBit : Nat) (x y : Nat) : Nat :=
  (f_ord signBit x - f_ord signBit y).natAbs

/-- NaN test dispatched on the element type (single/double precision). -/
def fpIsNan : VectorType → Nat → Bool
  | .TYPE_FLOAT32, b => f_isNan 23 8 b
  | .TYPE_FLOAT64, b => f_isNan 52 11 b
  | _, _ => false

/-- ULP distance dispatched on the element type (single/double precision). -/
def fpUlpDist : VectorType → Nat → Nat → Nat
  | .TYPE_FLOAT32, x, y => fUlpDist 31 x y
  | .TYPE_FLOAT64, x, y => fUlpDist 63 x y
  | _, _, _ => 0

/-- Whether a bit pattern is +0.0 or -0.0, dispatched on the element type. -/
def fpIsZero : VectorType → Nat → Bool
  | .TYPE_FLOAT32, b => b == 0 || b == 2 ^ 31
  | .TYPE_FLOAT64, b => b == 0 || b == 2 ^ 63
  | _, _ => false

/-- Whether the element type is a floating-point type. -/
def isFloatType : VectorType → Bool
  | .TYPE_FLOAT32 => true
  | .TYPE_FLOAT64 => true
  | _ => false

/-- Modelled from the spec: the element comparison rule of `test_equal` (whose
body is not in the sources). Integer types compare exactly; floating-point
types compare equal when both sides are NaN-free and their ULP distance is at
most the looser of the two records' declared tolerances, and additionally —
when either record set `fp_zero_equal` — when both sides are zeros of either
sign. -/
def elemEq (ra rb : Result) (i : Nat) : Bool :=
  if isFloatType ra.type then
    ((ra.fp_zero_eq || rb.fp_zero_eq)
        && fpIsZero ra.type (elemBits ra i) && fpIsZero ra.type (elemBits rb i))
      || (!fpIsNan ra.type (elemBits ra i) && !fpIsNan ra.type (elemBits rb i)
        && decide (fpUlpDist ra.type (elemBits ra i) (elemBits rb i)
          ≤ max (precision_for_result ra) (precision_for_result rb)))
  else elemBits ra i == elemBits rb i

/-- One diagnostic line written to the comparator's sink. -/
inductive Diag : Type where
  | sectionCountMismatch (na nb : Nat)
  | recordCountMismatch (sect na nb : Nat)
  | typeMismatch (sect pos : Nat)
  | lengthMismatch (sect pos : Nat)
  | elemMismatch (sect pos idx va vb : Nat)
deriving DecidableEq

/-- Modelled from the spec: `test_equal`'s comparison of one aligned record
pair. A type or length mismatch is reported and ends the pair's comparison;
otherwise every element is compared and every mismatching element is reported
individually with its index and both bit patterns. -/
def cmpRecordPair (sect pos : Nat) (ra rb : Result) : List Diag :=
  if ra.type ≠ rb.type then [.typeMismatch sect pos]
  else if ra.length ≠ rb.length then [.lengthMismatch sect pos]
  else (List.range ra.length).filterMap fun i =>
    if elemEq ra rb i then none
    else some (.elemMismatch sect pos i (elemBits ra i) (elemBits rb i))

/-- Modelled from the spec: the lockstep walk of `test_equal` over the aligned
records of one section pair. -/
def cmpRecords (sect : Nat) : Nat → List Result → List Result → List Diag
  | _, [], _ => []
  | _, _ :: _, [] => []
  | pos, ra :: as, rb :: bs => cmpRecordPair sect pos ra rb ++ cmpRecords sect (pos + 1) as bs

/-- Modelled from the spec: `test_equal`'s comparison of one aligned section
pair. A record-count mismatch is reported and the rest of the section is
skipped; otherwise the records are compared pairwise in order. -/
def cmpSection (sect : Nat) (sa sb : List Result) : List Diag :=
  if sa.length ≠ sb.length then [.recordCountMismatch sect sa.length sb.length]
  else cmpRecords sect 0 sa sb

/-- Modelled from the spec: the lockstep walk of `test_equal` over the aligned
sections of the two results sets. -/
def cmpSections : Nat → List (List Result) → List (List Result) → List Diag
  | _, [], _ => []
  | _, _ :: _, [] => []
  | sect, sa :: as, sb :: bs => cmpSection sect sa sb ++ cmpSections (sect + 1) as bs

/-- Modelled from the spec: the diagnostics `test_equal` (body not in the
sources) writes to its sink. A section-count mismatch yields exactly one
structural diagnostic and no further comparison; otherwise sections are
compared in lockstep. -/
def test_equal_diags (a b : TestResultsSet) : List Diag :=
  if a.results_.length ≠ b.results_.length then
    [.sectionCountMismatch a.results_.length b.results_.length]
  else cmpSections 0 a.results_ b.results_

/-- Modelled from the spec: the verdict of `test_equal` — success exactly when
no structural or element mismatch was reported. -/
def test_equal (a b : TestResultsSet) : Bool :=
  test_equal_diags a b == []

/-- The element indices of the element-level mismatch diagnostics in a
diagnostic list. -/
def reportedIdxs (l : List Diag) : List Nat :=
  l.filterMap fun d =>
    match d with
    | .elemMismatch _ _ idx _ _ => some idx
    | _ => none

/-- Whether no element of a floating-point record is a NaN (integer records
are unconstrained). -/
def recordNanFree (r : Result) : Bool :=
  !isFloatType r.type || (List.range r.length).all fun i => !fpIsNan r.type (elemBits r i)

/-- Whether every record of the results set is NaN-free. -/
def setNanFree (a : TestResultsSet) : Bool :=
  a.results_.all fun sec => sec.all recordNanFree

/-! ### Helper lemmas -/

theorem getD_of_lt {α : Type} (l : List α) (i : Nat) (d : α) (h : i < l.length) :
    l.getD i d = l[i] := by
  rw [List.getD_eq_getElem?_getD, List.getElem?_eq_getElem h]
  rfl

theorem getD_set_of_lt {α : Type} (l : List α) (i : Nat) (v d : α) (h : i < l.length) :
    (l.set i v).getD i d = v := by
  have h' : i < (l.set i v).length := by simpa using h
  rw [getD_of_lt _ _ _ h', List.getElem_set_self]

theorem listMemcpy_length (dst : List Nat) (off : Nat) (src : List Nat) :
    (listMemcpy dst off src).length = dst.length := by
  simp [listMemcpy]

theorem listMemcpy_getD (dst : List Nat) (off : Nat) (src : List Nat) (j : Nat)
    (hj : j < dst.length) :
    (listMemcpy dst off src).getD j 0 =
      if off ≤ j ∧ j < off + src.length then src.getD (j - off) 0 else dst.getD j 0 := by
  have hj' : j < (listMemcpy dst off src).length := by rwa [listMemcpy_length]
  rw [getD_of_lt _ _ _ hj']
  simp [listMemcpy]

theorem listMemcpy_of_le (dst : List Nat) (off : Nat) (src : List Nat)
    (h : dst.length ≤ off) : listMemcpy dst off src = dst := by
  apply List.ext_getElem
  · simp [listMemcpy]
  · intro i h1 h2
    simp only [listMemcpy, List.getElem_map, List.getElem_range]
    rw [if_neg (by omega), getD_of_lt _ _ _ h2]

theorem padTo_length (ls : List (List Result)) (n : Nat) :
    (padTo ls n).length = max ls.length n := by
  simp [padTo]
  omega

theorem lastOfSection_snoc (l : List Result) (r : Result) :
    lastOfSection (l ++ [r]) = some r := by
  induction l with
  | nil => rfl
  | cons b l ih =>
    cases l with
    | nil => rfl
    | cons c l' =>
      have h := ih
      simp only [List.cons_append, lastOfSection] at h ⊢
      exact h

theorem lastPushed_push (s : TestResultsSet) (t : VectorType) (len : Nat)
    (f : String) (ln : Nat) :
    lastPushed (s.push t len f ln) =
      some (Result.make t len (size_for_type t) f ln s.seq_
        s.curr_precision_ulp_ s.curr_fp_zero_equal_) := by
  have hc : s.curr_results_section_ <
      (padTo s.results_ (s.curr_results_section_ + 1)).length := by
    rw [padTo_length]
    omega
  simp only [lastPushed, TestResultsSet.push]
  rw [getD_set_of_lt _ _ _ _ hc, lastOfSection_snoc]

/-! ### Claims -/

/-- C2: for every two results sets with differing numbers of sections, the
comparator emits exactly one structural-mismatch diagnostic and returns
failure without comparing any records; the comparison function is total, so
the call returns cleanly. -/
theorem claim_C2 (a b : TestResultsSet)
    (hne : a.results_.length ≠ b.results_.length) :
    test_equal_diags a b =
      [Diag.sectionCountMismatch a.results_.length b.results_.length] ∧
    test_equal a b = false := by
  refine ⟨?_, ?_⟩
  · simp [test_equal_diags, hne]
  · simp [test_equal, test_equal_diags, hne]

/-- A one-record results set used to exercise the structural check. -/
def wC2a : TestResultsSet := (TestResultsSet.make "t").push .TYPE_UINT8 1 "f" 1

/-- A fresh results set with no materialized sections. -/
def wC2b : TestResultsSet := TestResultsSet.make "t"

/-- Witness for C2 at a concrete pair of results sets with one section versus
none. -/
theorem claim_C2_witness :
    test_equal_diags wC2a wC2b =
      [Diag.sectionCountMismatch wC2a.results_.length wC2b.results_.length] ∧
    test_equal wC2a wC2b = false :=
  claim_C2 wC2a wC2b (by decide)

/-- C6: after a push, `sync_archs` resets the sequence cursor so that the next
pushed record receives sequence number 1, and advances the section count by
exactly one. -/
theorem claim_C6 (s : TestResultsSet) (t : VectorType) (len : Nat) (f : String)
    (ln : Nat) (t' : VectorType) (len' : Nat) (f' : String) (ln' : Nat) :
    (lastPushed (((s.push t len f ln).sync_archs).push t' len' f' ln')).map Result.seq
        = some 1 ∧
    sectionCount ((s.push t len f ln).sync_archs)
        = sectionCount (s.push t len f ln) + 1 := by
  refine ⟨?_, rfl⟩
  rw [lastPushed_push]
  rfl

/-- C7: a fresh results set on which `sync_archs` is called twice with no
pushes in between reports zero results, and the number of sections begun is 3
(the initial section plus one per marker). -/
theorem claim_C7 :
    TestResultsSet.num_results ((TestResultsSet.make "A").sync_archs.sync_archs) = 0 ∧
    sectionCount ((TestResultsSet.make "A").sync_archs.sync_archs) = 3 :=
  ⟨rfl, rfl⟩

/-- C8: a freshly pushed record has a buffer of exactly
`length * element_size` bytes, every byte zero, before any `set` call. -/
theorem claim_C8 (s : TestResultsSet) (t : VectorType) (len : Nat) (f : String)
    (ln : Nat) :
    ∃ r, lastPushed (s.push t len f ln) = some r ∧
      r.el_size = size_for_type t ∧
      r.data = List.replicate (len * size_for_type t) 0 ∧
      r.data.length = len * r.el_size := by
  refine ⟨_, lastPushed_push s t len f ln, rfl, ?_, ?_⟩
  · show List.replicate (size_for_type t * len) 0 = List.replicate (len * size_for_type t) 0
    rw [Nat.mul_comm]
  · simp [Result.make, Nat.mul_comm]

/-- C9: the four policy mutators change only the cursor policy field they
target; in particular `results_`, and with it the `prec_ulp` and `fp_zero_eq`
fields of every already-pushed record, are unchanged. -/
theorem claim_C9 (s : TestResultsSet) (n : Nat) :
    ((s.set_precision n).results_ = s.results_ ∧
      (s.set_precision n).curr_precision_ulp_ = n ∧
      (s.set_precision n).curr_fp_zero_equal_ = s.curr_fp_zero_equal_ ∧
      (s.set_precision n).seq_ = s.seq_ ∧
      (s.set_precision n).curr_results_section_ = s.curr_results_section_) ∧
    (s.unset_precision.results_ = s.results_ ∧
      s.unset_precision.curr_precision_ulp_ = 0 ∧
      s.unset_precision.curr_fp_zero_equal_ = s.curr_fp_zero_equal_ ∧
      s.unset_precision.seq_ = s.seq_ ∧
      s.unset_precision.curr_results_section_ = s.curr_results_section_) ∧
    (s.set_fp_zero_equal.results_ = s.results_ ∧
      s.set_fp_zero_equal.curr_fp_zero_equal_ = true ∧
      s.set_fp_zero_equal.curr_precision_ulp_ = s.curr_precision_ulp_ ∧
      s.set_fp_zero_equal.seq_ = s.seq_ ∧
      s.set_fp_zero_equal.curr_results_section_ = s.curr_results_section_) ∧
    (s.unset_fp_zero_equal.results_ = s.results_ ∧
      s.unset_fp_zero_equal.curr_fp_zero_equal_ = false ∧
      s.unset_fp_zero_equal.curr_precision_ulp_ = s.curr_precision_ulp_ ∧
      s.unset_fp_zero_equal.seq_ = s.seq_ ∧
      s.unset_fp_zero_equal.curr_results_section_ = s.curr_results_section_) :=
  ⟨⟨rfl, rfl, rfl, rfl, rfl⟩, ⟨rfl, rfl, rfl, rfl, rfl⟩,
    ⟨rfl, rfl, rfl, rfl, rfl⟩, ⟨rfl, rfl, rfl, rfl, rfl⟩⟩

/-- A record used to exercise `Result.set` at an out-of-range index: type
`TYPE_UINT8`, two elements of one byte each, first element set to 5. -/
def wC4r : Result := (Result.make .TYPE_UINT8 2 1 "f" 1 1 0 false).set 0 [5]

/-- Counterexample to C4 as stated: `Result::set` performs a raw `memcpy` with
no bounds check, so at the out-of-range index 5 (the record has length 2) it
neither aborts nor raises — in the embedding the out-of-range write falls
entirely outside the buffer and the call returns the record unchanged, while
the checked variant written from the spec's words signals a failure. The code
is silent exactly where the claim demands a loud failure. -/
theorem claim_C4_counterexample :
    Result.set wC4r 5 [7] = wC4r ∧ Result.set_spec wC4r 5 [7] = none := by
  constructor
  · decide
  · decide

/-- C4 (amended): `set(index, raw_bytes)` with `index < length` copies exactly
`element_size` bytes into slot `index`, leaving every other byte and the
buffer length unchanged; but the implementation performs no bounds check, so a
call with `index >= length` silently leaves the buffer as it is (an unchecked
out-of-bounds write in the C++ source) instead of failing loudly. -/
theorem claim_C4_amended (r : Result) (id : Nat) (bytes : List Nat)
    (hwf : r.data.length = r.el_size * r.length) (hb : bytes.length = r.el_size) :
    (r.set id bytes).data.length = r.data.length ∧
    (id < r.length → ∀ j, j < r.el_size →
      (r.set id bytes).data.getD (id * r.el_size + j) 0 = bytes.getD j 0) ∧
    (id < r.length → ∀ j, j < r.data.length →
      (j < id * r.el_size ∨ (id + 1) * r.el_size ≤ j) →
      (r.set id bytes).data.getD j 0 = r.data.getD j 0) ∧
    (r.length ≤ id → r.set id bytes = r) := by
  have hsrc : (bytes.take r.el_size).length = r.el_size := by
    rw [List.length_take, hb]
    exact Nat.min_self _
  refine ⟨?_, ?_, ?_, ?_⟩
  · simp [Result.set, listMemcpy_length]
  · intro hid j hj
    have hp : id * r.el_size + j < r.data.length := by
      calc id * r.el_size + j < id * r.el_size + r.el_size := Nat.add_lt_add_left hj _
        _ = (id + 1) * r.el_size := (Nat.succ_mul id r.el_size).symm
        _ ≤ r.length * r.el_size := Nat.mul_le_mul_right _ hid
        _ = r.el_size * r.length := Nat.mul_comm _ _
        _ = r.data.length := hwf.symm
    show (listMemcpy r.data (id * r.el_size) (bytes.take r.el_size)).getD _ 0 = _
    rw [listMemcpy_getD _ _ _ _ hp, hsrc,
      if_pos ⟨Nat.le_add_right _ _, Nat.add_lt_add_left hj _⟩,
      Nat.add_sub_cancel_left]
    have hjt : j < (bytes.take r.el_size).length := by rw [hsrc]; exact hj
    have hjb : j < bytes.length := by rw [hb]; exact hj
    rw [getD_of_lt _ _ _ hjt, getD_of_lt _ _ _ hjb, List.getElem_take]
  · intro _ j hjd hside
    show (listMemcpy r.data (id * r.el_size) (bytes.take r.el_size)).getD j 0 = _
    rw [listMemcpy_getD _ _ _ _ hjd, hsrc, if_neg ?_]
    rcases hside with h | h
    · exact fun hc => absurd (Nat.lt_of_lt_of_le h hc.1) (Nat.lt_irrefl j)
    · rw [Nat.succ_mul] at h
      exact fun hc => absurd (Nat.lt_of_lt_of_le hc.2 h) (Nat.lt_irrefl j)
  · intro hge
    have hd : listMemcpy r.data (id * r.el_size) (bytes.take r.el_size) = r.data := by
      apply listMemcpy_of_le
      calc r.data.length = r.el_size * r.length := hwf
        _ ≤ r.el_size * id := Nat.mul_le_mul_left _ hge
        _ = id * r.el_size := Nat.mul_comm _ _
    show { r with data := listMemcpy r.data (id * r.el_size) (bytes.take r.el_size) } = r
    rw [hd]

/-- A well-formed two-element `TYPE_UINT16` record with a zeroed buffer. -/
def wC4w : Result := Result.make .TYPE_UINT16 2 2 "f" 1 1 0 false

/-- Witness for the amended C4 at a concrete record, index and byte pair. -/
theorem claim_C4_witness :
    (Result.set wC4w 1 [9, 8]).data.length = wC4w.data.length ∧
    (1 < wC4w.length → ∀ j, j < wC4w.el_size →
      (Result.set wC4w 1 [9, 8]).data.getD (1 * wC4w.el_size + j) 0 =
        List.getD [9, 8] j 0) ∧
    (1 < wC4w.length → ∀ j, j < wC4w.data.length →
      (j < 1 * wC4w.el_size ∨ (1 + 1) * wC4w.el_size ≤ j) →
      (Result.set wC4w 1 [9, 8]).data.getD j 0 = wC4w.data.getD j 0) ∧
    (wC4w.length ≤ 1 → Result.set wC4w 1 [9, 8] = wC4w) :=
  claim_C4_amended wC4w 1 [9, 8] (by decide) (by decide)

/-- The record invariant of the data model: the buffer holds exactly
`length * element_size` bytes and the element size is the one implied by the
element type. -/
def RecordWF (r : Result) : Prop :=
  r.data.length = r.length * r.el_size ∧ r.el_size = size_for_type r.type

/-- Every record of every section of a results set satisfies the record
invariant. -/
def StateWF (s : TestResultsSet) : Prop :=
  ∀ sec ∈ s.results_, ∀ r ∈ sec, RecordWF r

theorem getD_mem_or_default {α : Type} (ls : List α) (i : Nat) (d : α) :
    ls.getD i d ∈ ls ∨ ls.getD i d = d := by
  by_cases h : i < ls.length
  · left
    rw [getD_of_lt _ _ _ h]
    exact List.getElem_mem _
  · right
    rw [List.getD_eq_getElem?_getD, List.getElem?_eq_none (by omega)]
    rfl

theorem mem_padTo (ls : List (List Result)) (n : Nat) (x : List Result)
    (h : x ∈ padTo ls n) : x ∈ ls ∨ x = [] := by
  rcases List.mem_append.1 h with h | h
  · exact Or.inl h
  · exact Or.inr (List.eq_of_mem_replicate h)

theorem recordWF_make (t : VectorType) (len : Nat) (f : String) (ln sq p : Nat)
    (z : Bool) : RecordWF (Result.make t len (size_for_type t) f ln sq p z) := by
  constructor
  · simp [Result.make, Nat.mul_comm]
  · rfl

theorem recordWF_set (r : Result) (id : Nat) (bytes : List Nat)
    (h : RecordWF r) : RecordWF (r.set id bytes) := by
  obtain ⟨h1, h2⟩ := h
  constructor
  · simpa [Result.set, listMemcpy_length] using h1
  · exact h2

theorem recordWF_empty : RecordWF emptyResult := by
  constructor <;> rfl

theorem stateWF_push (s : TestResultsSet) (t : VectorType) (len : Nat)
    (f : String) (ln : Nat) (h : StateWF s) : StateWF (s.push t len f ln) := by
  intro sec hsec r hr
  simp only [TestResultsSet.push] at hsec
  rcases List.mem_or_eq_of_mem_set hsec with hmem | heq
  · rcases mem_padTo _ _ _ hmem with hmem | hmem
    · exact h sec hmem r hr
    · subst hmem
      exact absurd hr (List.not_mem_nil r)
  · subst heq
    rcases List.mem_append.1 hr with hr | hr
    · rcases getD_mem_or_default (padTo s.results_ (s.curr_results_section_ + 1))
        s.curr_results_section_ [] with hg | hg
      · rcases mem_padTo _ _ _ hg with hg | hg
        · exact h _ hg r hr
        · rw [hg] at hr
          exact absurd hr (List.not_mem_nil r)
      · rw [hg] at hr
        exact absurd hr (List.not_mem_nil r)
    · rw [List.mem_singleton] at hr
      subst hr
      exact recordWF_make t len f ln s.seq_ s.curr_precision_ulp_ s.curr_fp_zero_equal_

theorem stateWF_set_result (s : TestResultsSet) (sect pos id : Nat)
    (bytes : List Nat) (h : StateWF s) : StateWF (s.set_result sect pos id bytes) := by
  intro sec hsec r hr
  simp only [TestResultsSet.set_result] at hsec
  rcases List.mem_or_eq_of_mem_set hsec with hmem | heq
  · exact h sec hmem r hr
  · subst heq
    rcases List.mem_or_eq_of_mem_set hr with hr | hr
    · rcases getD_mem_or_default s.results_ sect [] with hg | hg
      · exact h _ hg r hr
      · rw [hg] at hr
        exact absurd hr (List.not_mem_nil r)
    · subst hr
      apply recordWF_set
      rcases getD_mem_or_default (s.results_.getD sect []) pos emptyResult with hg | hg
      · rcases getD_mem_or_default s.results_ sect [] with hg2 | hg2
        · exact h _ hg2 _ hg
        · rw [hg2] at hg
          exact absurd hg (List.not_mem_nil _)
      · rw [hg]
        exact recordWF_empty

theorem stateWF_applyOp (s : TestResultsSet) (op : Op) (h : StateWF s) :
    StateWF (applyOp s op) := by
  cases op with
  | push t len f ln => exact stateWF_push s t len f ln h
  | set_result sect pos id bytes => exact stateWF_set_result s sect pos id bytes h
  | set_precision n => exact h
  | unset_precision => exact h
  | set_fp_zero_equal => exact h
  | unset_fp_zero_equal => exact h
  | sync_archs => exact h
  | reset_seq => exact h

theorem stateWF_foldl (ops : List Op) (s : TestResultsSet) (h : StateWF s) :
    StateWF (ops.foldl applyOp s) := by
  induction ops generalizing s with
  | nil => exact h
  | cons op ops ih => exact ih _ (stateWF_applyOp s op h)

/-- C5: in every state a results set can reach, every record satisfies
`data.size() == length * element_size` with the element size the one implied
by the record's type. -/
theorem claim_C5 (name : String) (ops : List Op) :
    ∀ sec ∈ (run name ops).results_, ∀ r ∈ sec,
      r.data.length = r.length * r.el_size ∧ r.el_size = size_for_type r.type := by
  have h : StateWF (run name ops) := by
    apply stateWF_foldl
    intro sec hsec
    exact absurd hsec (List.not_mem_nil sec)
  exact h

/-- Witness for C5: the record pushed by a one-action trace satisfies the
invariant. -/
theorem claim_C5_witness :
    (Result.make .TYPE_INT32 2 4 "f" 3 1 0 false).data.length =
        (Result.make .TYPE_INT32 2 4 "f" 3 1 0 false).length *
          (Result.make .TYPE_INT32 2 4 "f" 3 1 0 false).el_size ∧
      (Result.make .TYPE_INT32 2 4 "f" 3 1 0 false).el_size =
        size_for_type (Result.make .TYPE_INT32 2 4 "f" 3 1 0 false).type :=
  claim_C5 "w" [Op.push .TYPE_INT32 2 "f" 3]
    [Result.make .TYPE_INT32 2 4 "f" 3 1 0 false] (by decide)
    (Result.make .TYPE_INT32 2 4 "f" 3 1 0 false) (by decide)

theorem mem_reportedIdxs_cmpRecordPair (sect pos : Nat) (ra rb : Result)
    (ht : ra.type = rb.type) (hl : ra.length = rb.length) (i : Nat) :
    i ∈ reportedIdxs (cmpRecordPair sect pos ra rb) ↔
      i < ra.length ∧ elemEq ra rb i = false := by
  unfold cmpRecordPair reportedIdxs
  rw [if_neg (by simp [ht]), if_neg (by simp [hl]), List.filterMap_filterMap,
    List.mem_filterMap]
  constructor
  · rintro ⟨j, hj, hfj⟩
    rw [List.mem_range] at hj
    by_cases hb : elemEq ra rb j
    · rw [if_pos hb] at hfj
      simp at hfj
    · rw [if_neg hb] at hfj
      simp only [Option.some_bind] at hfj
      have hji : j = i := by simpa using hfj
      subst hji
      exact ⟨hj, by simpa using hb⟩
  · rintro ⟨hi, he⟩
    refine ⟨i, List.mem_range.2 hi, ?_⟩
    rw [if_neg (by simp [he])]
    rfl

theorem elemEq_float (ra rb : Result) (i : Nat) (hf : isFloatType ra.type = true)
    (hza : ra.fp_zero_eq = false) (hzb : rb.fp_zero_eq = false) :
    elemEq ra rb i = true ↔
      (fpIsNan ra.type (elemBits ra i) = false ∧
       fpIsNan ra.type (elemBits rb i) = false ∧
       fpUlpDist ra.type (elemBits ra i) (elemBits rb i)
         ≤ max (precision_for_result ra) (precision_for_result rb)) := by
  simp [elemEq, hf, hza, hzb, Bool.not_eq_true', and_assoc]

/-- A one-element `float32` record holding +0.0 with exact tolerance and
`fp_zero_equal` set. -/
def z1a : Result := (Result.make .TYPE_FLOAT32 1 4 "f" 1 1 0 true).set 0 [0, 0, 0, 0]

/-- A one-element `float32` record holding -0.0 (bit pattern 0x80000000) with
exact tolerance and `fp_zero_equal` unset. -/
def z1b : Result := (Result.make .TYPE_FLOAT32 1 4 "f" 1 1 0 false).set 0 [0, 0, 0, 128]

/-- Counterexample to C1 as stated: the claim's "equal if and only if both are
NaN-free and the ULP distance is within the looser tolerance" omits the
zero-equality exception of the comparison rule. With `fp_zero_equal` set on
one record, +0.0 and -0.0 — NaN-free, 1 ULP apart, both tolerances 0 — are
treated as equal (not reported) although the claim's criterion fails, refuting
the "only if" direction. -/
theorem claim_C1_counterexample :
    0 ∉ reportedIdxs (cmpRecordPair 0 0 z1a z1b) ∧
    ¬(fpIsNan z1a.type (elemBits z1a 0) = false ∧
      fpIsNan z1a.type (elemBits z1b 0) = false ∧
      fpUlpDist z1a.type (elemBits z1a 0) (elemBits z1b 0)
        ≤ max (precision_for_result z1a) (precision_for_result z1b)) := by
  refine ⟨by decide, by decide⟩

/-- C1 (amended): for every aligned pair of floating-point records of the same
type and length on which neither record set `fp_zero_equal`, the comparator
reports
element `i` as a mismatch exactly when it is not the case that both bit
patterns are NaN-free and their ULP distance is at most the looser of the two
declared tolerances; at the boundary, a pair exactly at the tolerance is not
reported and a pair one more ULP apart is reported. -/
theorem claim_C1 (sect pos : Nat) (ra rb : Result) (i : Nat)
    (ht : ra.type = rb.type) (hf : isFloatType ra.type = true)
    (hza : ra.fp_zero_eq = false) (hzb : rb.fp_zero_eq = false)
    (hl : ra.length = rb.length) (hi : i < ra.length) :
    (i ∈ reportedIdxs (cmpRecordPair sect pos ra rb) ↔
      ¬(fpIsNan ra.type (elemBits ra i) = false ∧
        fpIsNan ra.type (elemBits rb i) = false ∧
        fpUlpDist ra.type (elemBits ra i) (elemBits rb i)
          ≤ max (precision_for_result ra) (precision_for_result rb))) ∧
    (fpIsNan ra.type (elemBits ra i) = false →
      fpIsNan ra.type (elemBits rb i) = false →
      fpUlpDist ra.type (elemBits ra i) (elemBits rb i)
          = max (precision_for_result ra) (precision_for_result rb) →
      i ∉ reportedIdxs (cmpRecordPair sect pos ra rb)) ∧
    (fpUlpDist ra.type (elemBits ra i) (elemBits rb i)
          = max (precision_for_result ra) (precision_for_result rb) + 1 →
      i ∈ reportedIdxs (cmpRecordPair sect pos ra rb)) := by
  have hchar := elemEq_float ra rb i hf hza hzb
  have key : i ∈ reportedIdxs (cmpRecordPair sect pos ra rb) ↔
      ¬(fpIsNan ra.type (elemBits ra i) = false ∧
        fpIsNan ra.type (elemBits rb i) = false ∧
        fpUlpDist ra.type (elemBits ra i) (elemBits rb i)
          ≤ max (precision_for_result ra) (precision_for_result rb)) := by
    rw [mem_reportedIdxs_cmpRecordPair sect pos ra rb ht hl i, ← hchar]
    constructor
    · rintro ⟨_, he⟩ hc
      rw [he] at hc
      cases hc
    · intro hc
      refine ⟨hi, ?_⟩
      revert hc
      cases elemEq ra rb i <;> simp
  refine ⟨key, ?_, ?_⟩
  · intro h1 h2 h3
    simp only [key, not_not]
    exact ⟨h1, h2, h3.le⟩
  · intro h3
    rw [key]
    rintro ⟨_, _, hle⟩
    omega

/-- A one-element `float32` record holding 1.0f with a 2-ULP tolerance. -/
def w1a : Result := (Result.make .TYPE_FLOAT32 1 4 "f" 1 1 2 false).set 0 [0, 0, 128, 63]

/-- A one-element `float32` record holding the value 2 ULPs above 1.0f with an
exact tolerance. -/
def w1b : Result := (Result.make .TYPE_FLOAT32 1 4 "f" 1 1 0 false).set 0 [2, 0, 128, 63]

/-- Witness for C1 at a concrete pair of `float32` records exactly at the
looser declared tolerance (2 ULPs apart, tolerances 2 and 0). -/
theorem claim_C1_witness :
    (0 ∈ reportedIdxs (cmpRecordPair 0 0 w1a w1b) ↔
      ¬(fpIsNan w1a.type (elemBits w1a 0) = false ∧
        fpIsNan w1a.type (elemBits w1b 0) = false ∧
        fpUlpDist w1a.type (elemBits w1a 0) (elemBits w1b 0)
          ≤ max (precision_for_result w1a) (precision_for_result w1b))) ∧
    (fpIsNan w1a.type (elemBits w1a 0) = false →
      fpIsNan w1a.type (elemBits w1b 0) = false →
      fpUlpDist w1a.type (elemBits w1a 0) (elemBits w1b 0)
          = max (precision_for_result w1a) (precision_for_result w1b) →
      0 ∉ reportedIdxs (cmpRecordPair 0 0 w1a w1b)) ∧
    (fpUlpDist w1a.type (elemBits w1a 0) (elemBits w1b 0)
          = max (precision_for_result w1a) (precision_for_result w1b) + 1 →
      0 ∈ reportedIdxs (cmpRecordPair 0 0 w1a w1b)) :=
  claim_C1 0 0 w1a w1b 0 (by decide) (by decide) (by decide) (by decide)
    (by decide) (by decide)

/-- A results set holding a single `float32` element whose bytes are the NaN
bit pattern 0x7FC00000 (little-endian). -/
def nanSet : TestResultsSet :=
  ((TestResultsSet.make "n").push .TYPE_FLOAT32 1 "f" 1).set_result 0 0 0 [0, 0, 192, 127]

/-- Counterexample to C3 as stated: a results set whose record holds a NaN
element fails comparison against a structurally and numerically identical copy
of itself (here literally the same value), because the floating-point rule
demands both sides be NaN-free; so self-comparison does not succeed regardless
of the byte contents. -/
theorem claim_C3_counterexample :
    test_equal nanSet nanSet = false ∧ test_equal_diags nanSet nanSet ≠ [] := by
  refine ⟨by decide, by decide⟩

theorem fpUlpDist_self (t : VectorType) (x : Nat) : fpUlpDist t x x = 0 := by
  cases t <;> simp [fpUlpDist, fUlpDist]

theorem elemEq_self (r : Result) (h : recordNanFree r = true) (i : Nat)
    (hi : i < r.length) : elemEq r r i = true := by
  unfold elemEq
  by_cases hf : isFloatType r.type
  · rw [if_pos hf]
    have hnan : fpIsNan r.type (elemBits r i) = false := by
      unfold recordNanFree at h
      rw [hf] at h
      simp only [Bool.not_true, Bool.false_or, List.all_eq_true] at h
      simpa using h i (List.mem_range.2 hi)
    simp [hnan, fpUlpDist_self]
  · rw [if_neg hf]
    exact beq_self_eq_true _

theorem cmpRecordPair_self (sect pos : Nat) (r : Result)
    (h : recordNanFree r = true) : cmpRecordPair sect pos r r = [] := by
  unfold cmpRecordPair
  rw [if_neg (by simp), if_neg (by simp), List.filterMap_eq_nil_iff]
  intro i hi
  rw [List.mem_range] at hi
  rw [if_pos (elemEq_self r h i hi)]

theorem cmpRecords_self (sect : Nat) (l : List Result)
    (h : ∀ r ∈ l, recordNanFree r = true) :
    ∀ pos, cmpRecords sect pos l l = [] := by
  induction l with
  | nil => intro pos; rfl
  | cons r l ih =>
    intro pos
    show cmpRecordPair sect pos r r ++ cmpRecords sect (pos + 1) l l = []
    rw [cmpRecordPair_self sect pos r (h r (List.mem_cons_self r l)),
      ih (fun x hx => h x (List.mem_cons_of_mem r hx)) (pos + 1)]
    rfl

theorem cmpSection_self (sect : Nat) (l : List Result)
    (h : ∀ r ∈ l, recordNanFree r = true) : cmpSection sect l l = [] := by
  unfold cmpSection
  rw [if_neg (by simp)]
  exact cmpRecords_self sect l h 0

theorem cmpSections_self (ls : List (List Result))
    (h : ∀ sec ∈ ls, ∀ r ∈ sec, recordNanFree r = true) :
    ∀ sect, cmpSections sect ls ls = [] := by
  induction ls with
  | nil => intro sect; rfl
  | cons sec ls ih =>
    intro sect
    show cmpSection sect sec sec ++ cmpSections (sect + 1) ls ls = []
    rw [cmpSection_self sect sec (h sec (List.mem_cons_self sec ls)),
      ih (fun x hx => h x (List.mem_cons_of_mem sec hx)) (sect + 1)]
    rfl

/-- C3 (amended): comparing a results set against a structurally and
numerically identical copy of itself succeeds with zero reported mismatches
provided no floating-point record holds a NaN element (integer records are
unconstrained); a NaN element makes even self-comparison fail, since the
floating-point rule requires both sides NaN-free. -/
theorem claim_C3_amended (a : TestResultsSet) (h : setNanFree a = true) :
    test_equal_diags a a = [] ∧ test_equal a a = true := by
  have hd : test_equal_diags a a = [] := by
    unfold test_equal_diags
    rw [if_neg (by simp)]
    apply cmpSections_self
    intro sec hsec r hr
    unfold setNanFree at h
    rw [List.all_eq_true] at h
    have h2 := h sec hsec
    rw [List.all_eq_true] at h2
    exact h2 r hr
  exact ⟨hd, by simp [test_equal, hd]⟩

/-- A NaN-free results set with an integer section and a `float32` section. -/
def wC3 : TestResultsSet :=
  ((((TestResultsSet.make "w").push .TYPE_UINT8 2 "f" 1).set_result 0 0 0
      [5]).sync_archs.push .TYPE_FLOAT32 1 "g" 2).set_result 1 0 0 [0, 0, 128, 63]

/-- Witness for the amended C3 at a concrete NaN-free two-section set. -/
theorem claim_C3_witness :
    setNanFree wC3 = true ∧
      (test_equal_diags wC3 wC3 = [] ∧ test_equal wC3 wC3 = true) :=
  ⟨by decide, claim_C3_amended wC3 (by decide)⟩

/-- C10: the record constructor is total in the length argument; at length 0
it produces a record with an empty buffer (and records the length 0). -/
theorem claim_C10 (t : VectorType) (el : Nat) (f : String) (ln sq p : Nat)
    (z : Bool) :
    (Result.make t 0 el f ln sq p z).data = [] ∧
    (Result.make t 0 el f ln sq p z).length = 0 := by
  refine ⟨?_, rfl⟩
  simp [Result.make]

end Simdpp
